import Mathlib

/-!
Verification of the `FloatCtrl` numeric entry control from `lib/wx/wxlib.py`
(a Python 2 + wxPython widget library).

The development shallowly embeds the control: its state is a Lean structure,
its methods are pure state-transforming functions, callback invocations are
returned as an explicit list, and a Python exception escaping a method is an
`Except.error`.  Numeric values are modelled by the rationals; text is
modelled by `String`.  Behaviour of the host language and toolkit that the
source relies on (the builtin `float`, the `%.Nf` format operator, Python 2
comparison of `None` with numbers, caret clamping in `wx.TextCtrl`) is
modelled by dedicated definitions, each marked in its doc comment.
-/

namespace PyepicsWx

/-! ## Decimal text: digits, parsing, formatting -/

/-- Numeric value of a digit character (code minus 48). -/
def digToNat (c : Char) : Nat := c.toNat - 48

/-- Value of a big-endian list of digit characters. -/
def valDigits (cs : List Char) : Nat :=
  cs.foldl (fun a c => 10 * a + digToNat c) 0

/-- Value of a little-endian list of digit characters (helper for proofs). -/
def valRev : List Char → Nat
  | [] => 0
  | c :: r => digToNat c + 10 * valRev r

/-- Little-endian digits of `n`, using `fuel` as a structural bound. -/
def digitsRevFuel : Nat → Nat → List Char
  | 0, _ => []
  | _ + 1, 0 => []
  | f + 1, n + 1 => Nat.digitChar ((n + 1) % 10) :: digitsRevFuel f ((n + 1) / 10)

/-- Little-endian digits of `n` (empty for 0). -/
def natDigitsRev (n : Nat) : List Char := digitsRevFuel n n

/-- Decimal representation of a natural number, as the digit characters
produced by the C `printf` integer conversion. -/
def natRepr (n : Nat) : List Char :=
  if n = 0 then ['0'] else (natDigitsRev n).reverse

/-- Left-pad a digit string with zeros to length `p` (fraction field of
a fixed-point conversion). -/
def padFrac (p : Nat) (cs : List Char) : List Char :=
  List.replicate (p - cs.length) '0' ++ cs

/-- Split a character list at the occurrences of the decimal point:
returns the piece before the first point and the list of later pieces. -/
def dotSplit : List Char → List Char × List (List Char)
  | [] => ([], [])
  | c :: r =>
    if c = '.' then ([], (dotSplit r).1 :: (dotSplit r).2)
    else (c :: (dotSplit r).1, (dotSplit r).2)

/-- Apply an optional leading minus sign. -/
def msign (neg : Bool) (x : ℚ) : ℚ := if neg then -x else x

/-- Modelled from the host language: the part of the builtin `float` parser
after the optional sign, restricted to fixed-point notation
(`digits`, `digits.digits`, `.digits`, `digits.`).  This is the fragment
the control itself produces and whose characters its keystroke filter
admits; other forms accepted by Python (exponents, `inf`, `nan`,
surrounding whitespace) are outside the model. -/
def pyFloatBody (neg : Bool) (ds : List Char) : Option ℚ :=
  let ip := (dotSplit ds).1
  match (dotSplit ds).2 with
  | [] =>
    if ip.all Char.isDigit && !ip.isEmpty then
      Option.some (msign neg ((valDigits ip : ℚ)))
    else Option.none
  | [fp] =>
    if ip.all Char.isDigit && fp.all Char.isDigit && (!ip.isEmpty || !fp.isEmpty) then
      Option.some (msign neg
        (mkRat ((valDigits ip * 10 ^ fp.length + valDigits fp : ℕ) : ℤ) (10 ^ fp.length)))
    else Option.none
  | _ => Option.none

/-- Modelled from the host language: the builtin `float` parser on a list of
characters (sign handling, then `pyFloatBody`).  `Option.none` is a
`ValueError`. -/
def pyFloatCore (cs : List Char) : Option ℚ :=
  match cs with
  | [] => pyFloatBody false []
  | c :: r =>
    if c = '-' then pyFloatBody true r
    else if c = '+' then pyFloatBody false r
    else pyFloatBody false (c :: r)

/-- Modelled from the host language: the builtin `float` on a string. -/
def pyFloat (s : String) : Option ℚ := pyFloatCore s.data

/-- Modelled from the host language: `str.strip()`, removing leading and
trailing whitespace. -/
def pyStrip (s : String) : String :=
  String.mk (((s.data.dropWhile Char.isWhitespace).reverse.dropWhile
    Char.isWhitespace).reverse)

/-- Modelled from the host language: the `c in s` membership test of a
character in a string. -/
def strContains (s : String) (c : Char) : Bool := s.data.contains c

/-- Modelled from the host language: the integer nearest `v * 10 ^ p`,
ties to even — the rounding performed by the C `printf` fixed-point
conversion that implements the `%` format operator on floats.
Computed on the numerator and denominator with integer operations. -/
def scaledRound (p : Nat) (v : ℚ) : ℤ :=
  let a : ℤ := v.num * (10 : ℤ) ^ p
  let b : ℤ := (v.den : ℤ)
  let f : ℤ := Int.fdiv a b
  let r2 : ℤ := 2 * (a - f * b)
  if r2 < b then f
  else if b < r2 then f + 1
  else if f % 2 = 0 then f else f + 1

/-- The digits of a fixed-point conversion of the scaled integer `m`:
integer part, and for positive precision a point and a `p`-digit fraction. -/
def fmtBody (p : Nat) (m : Nat) : List Char :=
  if p = 0 then natRepr m
  else natRepr (m / 10 ^ p) ++ '.' :: padFrac p (natRepr (m % 10 ^ p))

/-- Fixed-point conversion of the integer `n / 10 ^ p`: optional sign and
`fmtBody`. -/
def fmtCore (p : Nat) (n : ℤ) : List Char :=
  (if n < 0 then ['-'] else []) ++ fmtBody p n.natAbs

/-- Modelled from the host language: `('%.<p>f' % v)`, the fixed-point
formatting of `v` with `p` digits after the point. -/
def formatFix (p : Nat) (v : ℚ) : String :=
  String.mk (fmtCore p (scaledRound p v))

/-- The value `v` rounded to `p` digits after the decimal point. -/
def roundPrec (p : Nat) (v : ℚ) : ℚ :=
  ((scaledRound p v : ℤ) : ℚ) / (10 : ℚ) ^ p

/-! ## The FloatCtrl component -/

/-- Python exceptions that the modelled methods can raise. -/
inductive PyError where
  | typeError
  | notANumber
deriving DecidableEq

/-- A Python value passed to `set_float` / `SetValue`: `None`, a string, or
a float. -/
inductive PyVal where
  | pynone
  | pystr (s : String)
  | pynum (q : ℚ)
deriving DecidableEq

/-- View a stored optional float as the Python object it is. -/
def pyOfOpt : Option ℚ → PyVal
  | Option.none => PyVal.pynone
  | Option.some q => PyVal.pynum q

/-- Source `set_float(val, default=None)`: `None` and the empty string give
the default, a string is parsed with `float` and a `ValueError` gives the
default, a float is returned unchanged. -/
def set_float (val : PyVal) (default : Option ℚ) : Option ℚ :=
  match val with
  | PyVal.pynone => default
  | PyVal.pystr s =>
    if s = "" then default
    else
      match pyFloat s with
      | Option.some q => Option.some q
      | Option.none => default
  | PyVal.pynum q => Option.some q

/-- Modelled from the host language: Python 2 mixed comparison `v < m` where
`v` may be `None` — `None` compares smaller than every number. -/
def py2lt (v : Option ℚ) (m : ℚ) : Bool :=
  match v with
  | Option.none => true
  | Option.some q => decide (q < m)

/-- Modelled from the host language: Python 2 mixed comparison `v > m` where
`v` may be `None` — `None` compares smaller than every number. -/
def py2gt (v : Option ℚ) (m : ℚ) : Bool :=
  match v with
  | Option.none => false
  | Option.some q => decide (m < q)

/-- Widget colours used as the validity cue. -/
inductive WxColor where
  | black
  | white
  | red
  | paleYellow
deriving DecidableEq

/-- Source `self.fgcol_valid = "Black"`. -/
def fgcol_valid : WxColor := WxColor.black
/-- Source `self.bgcol_valid = "White"`. -/
def bgcol_valid : WxColor := WxColor.white
/-- Source `self.fgcol_invalid = "Red"`. -/
def fgcol_invalid : WxColor := WxColor.red
/-- Source `self.bgcol_invalid = (254, 254, 80)`. -/
def bgcol_invalid : WxColor := WxColor.paleYellow

/-- State of a `FloatCtrl`: the private fields `__val`, `__bound_val`,
`__valid`, `__min`, `__max`, `__prec`, `__mark`, the colours, and the state
of the underlying `wx.TextCtrl` surface (its text and the start of its
selection, which is the caret position). The `format` field of the source
is determined by `prec` and is applied where used. -/
structure FloatCtrlState where
  val : Option ℚ
  bound_val : Option ℚ
  valid : Bool
  fmin : Option ℚ
  fmax : Option ℚ
  prec : Nat
  fg : WxColor
  bg : WxColor
  text : String
  sel : Nat
  mark : Nat
deriving DecidableEq

/-- The bounds portion of `__CheckValid`: starting from `valid = True` and
`v = set_float(value)`, flag and clamp at the min bound then at the max
bound, with Python 2 `None` comparisons.  Returns the final
`(valid, v)`. -/
def checkVal (mn mx : Option ℚ) (v : Option ℚ) : Bool × Option ℚ :=
  let r1 : Bool × Option ℚ :=
    match mn with
    | Option.some m => if py2lt v m then (false, Option.some m) else (true, v)
    | Option.none => (true, v)
  match mx with
  | Option.some m => if py2gt r1.2 m then (false, Option.some m) else r1
  | Option.none => r1

/-- Source `FloatCtrl.__CheckValid(value)`.  In Python 2 no statement of its
`try` block can raise for a `None`, string or float argument (`set_float`
swallows `ValueError` and `None` comparisons are legal), so the initial
`v = self.__val` and the bare `except` are dead and the method is total.
`Refresh` is an external repaint and is not modelled. -/
def CheckValid (c : FloatCtrlState) (value : PyVal) : FloatCtrlState :=
  let r := checkVal c.fmin c.fmax (set_float value Option.none)
  if r.1 then
    { c with valid := true, bound_val := r.2, val := r.2,
             fg := fgcol_valid, bg := bgcol_valid }
  else
    { c with valid := false, bound_val := r.2,
             fg := fgcol_invalid, bg := bgcol_invalid }

/-- Source `FloatCtrl.__GetMark()`: remember the caret as the selection
start clamped to the length of the stripped text. -/
def GetMark (c : FloatCtrlState) : FloatCtrlState :=
  { c with mark := Nat.min c.sel (pyStrip c.text).length }

/-- Source `FloatCtrl.__SetMark()`: restore the caret with
`SetSelection(m, m)`.  Modelled from the toolkit: `wx.TextCtrl` clamps the
requested position to the current text length. -/
def SetMark (c : FloatCtrlState) : FloatCtrlState :=
  { c with sel := Nat.min c.mark c.text.length }

/-- Source `FloatCtrl.__Text_SetValue(value)`: write `format % set_float(value)`
to the surface.  When the argument is `None` the Python 2 format operator
raises `TypeError` (float argument required), which propagates.  The
toolkit delivers its own text-changed notifications; those arrive at the
separately modelled `onText` handler and are not replayed inside this
call. -/
def Text_SetValue (c : FloatCtrlState) (value : Option ℚ) :
    Except PyError FloatCtrlState :=
  match set_float (pyOfOpt value) Option.none with
  | Option.none => Except.error PyError.typeError
  | Option.some q => Except.ok { c with text := formatFix c.prec q }

/-- The `if value == None: value = wx.TextCtrl.GetValue(self).strip()`
prologue of `SetValue`: only `None` equals `None` under Python `==` among
the argument types, so `None` is replaced by the stripped surface text. -/
def svArg (c : FloatCtrlState) (value : PyVal) : PyVal :=
  match value with
  | PyVal.pynone => PyVal.pystr (pyStrip c.text)
  | v => v

/-- Source `FloatCtrl.SetValue(value, act=True)`.  Returns the new state and
the list of values passed to the action callback (`self.__action(value=...)`);
the `closure` wrapper is always callable, so the guard reduces to `act`, and
its fixed keyword arguments are forwarded unchanged on every call.
`wx.Bell()` is an external audible cue and is not modelled. -/
def SetValue (c : FloatCtrlState) (value : PyVal) (act : Bool) :
    Except PyError (FloatCtrlState × List (Option ℚ)) :=
  let c1 := GetMark (CheckValid c (svArg c value))
  if c1.valid then
    match Text_SetValue c1 c1.val with
    | Except.error e => Except.error e
    | Except.ok c2 =>
      let c3 := { c2 with fg := fgcol_valid, bg := bgcol_valid }
      Except.ok (SetMark c3, if act then [c3.val] else [])
  else
    let c2 := { c1 with val := c1.bound_val }
    match Text_SetValue c2 c2.val with
    | Except.error e => Except.error e
    | Except.ok c3 =>
      let c4 := CheckValid c3 (pyOfOpt c3.val)
      let c5 := { c4 with fg := fgcol_invalid, bg := bgcol_invalid }
      Except.ok (SetMark c5, [])

/-- Decision of the keystroke filter for the current event. -/
inductive CharAction where
  | skip
  | consume
deriving DecidableEq

/-- Source `self.__digits = '0123456789.-'`. -/
def ctrlDigits : List Char := "0123456789.-".data

/-- Source `FloatCtrl.onChar(event)`: Enter commits the stripped text via
`SetValue`; key codes below the printable range, delete and codes above 255
pass through; a second point, an out of place minus, or any character that
would land before an existing minus is consumed; characters of
`self.__digits` pass through; everything else is consumed.  `skip` is
`event.Skip()` (the toolkit inserts the character), `consume` is returning
without skip. -/
def onChar (c : FloatCtrlState) (key : Nat) :
    Except PyError (FloatCtrlState × List (Option ℚ) × CharAction) :=
  let entry := pyStrip c.text
  let pos := c.sel
  if key = 13 then
    match SetValue c (PyVal.pystr entry) true with
    | Except.error e => Except.error e
    | Except.ok (c1, calls) => Except.ok (c1, calls, CharAction.consume)
  else if key < 32 || key = 127 || 255 < key then
    Except.ok (c, [], CharAction.skip)
  else
    let hasMinus := strContains entry '-'
    let ckey := Char.ofNat key
    if (ckey == '.' && (c.prec == 0 || strContains entry '.')) ||
       (ckey == '-' && (hasMinus || pos != 0)) ||
       (ckey != '-' && hasMinus && pos == 0) then
      Except.ok (c, [], CharAction.consume)
    else if ctrlDigits.contains ckey then
      Except.ok (c, [], CharAction.skip)
    else
      Except.ok (c, [], CharAction.consume)

/-- Source `FloatCtrl.onText(event)`: re-validate the full buffer on every
text change whose new content is nonempty. -/
def onText (c : FloatCtrlState) (s : String) : FloatCtrlState :=
  if s = "" then c else CheckValid c (PyVal.pystr s)

/-- Source `FloatCtrl.SetMin(min)`. -/
def SetMin (c : FloatCtrlState) (m : PyVal) : FloatCtrlState :=
  { c with fmin := set_float m Option.none }

/-- Source `FloatCtrl.SetMax(max)`. -/
def SetMax (c : FloatCtrlState) (m : PyVal) : FloatCtrlState :=
  { c with fmax := set_float m Option.none }

/-- Source `FloatCtrl.SetPrecision(p)`: `None` normalizes to 0; the format
string it rebuilds is derived from `prec` at each use in this model. -/
def SetPrecision (c : FloatCtrlState) (p : Option Nat) : FloatCtrlState :=
  match p with
  | Option.none => { c with prec := 0 }
  | Option.some q => { c with prec := q }

/-- Result of `GetValue`: a Python int or float (a float may be `None`). -/
inductive PyNum where
  | pyint (n : ℤ)
  | pyfloat (q : Option ℚ)
deriving DecidableEq

/-- Modelled from the host language: `fpformat.fix(x, digs)` of the Python 2
standard library — fixed-point formatting with `digs` digits, rounding half
away from zero on the decimal representation; a non-numeric argument (such
as `None`) raises `NotANumber`. -/
def fpformat_fix (x : Option ℚ) (digs : Nat) : Except PyError String :=
  match x with
  | Option.none => Except.error PyError.notANumber
  | Option.some q =>
    let a : ℤ := q.num * (10 : ℤ) ^ digs
    let b : ℤ := (q.den : ℤ)
    let f : ℤ := Int.fdiv a b
    let r2 : ℤ := 2 * (a - f * b)
    let n : ℤ := if r2 < b then f else if b < r2 then f + 1
      else if f < 0 then f else f + 1
    Except.ok (String.mk (fmtCore digs n))

/-- Modelled from the host language: Python `int()` on a float truncates
toward zero. -/
def pyIntOfRat (q : ℚ) : ℤ := Int.tdiv q.num (q.den : ℤ)

/-- Source `FloatCtrl.GetValue()`: with positive precision, parse back the
`fpformat.fix` rendering of the stored value; with precision 0, `int(self.__val)`,
which raises `TypeError` when the stored value is still `None`. -/
def GetValue (c : FloatCtrlState) : Except PyError PyNum :=
  if 0 < c.prec then
    match fpformat_fix c.val c.prec with
    | Except.error e => Except.error e
    | Except.ok s => Except.ok (PyNum.pyfloat (set_float (PyVal.pystr s) Option.none))
  else
    match c.val with
    | Option.none => Except.error PyError.typeError
    | Option.some q => Except.ok (PyNum.pyint (pyIntOfRat q))

/-- Projection: the state of a successful method result. -/
def resState (r : Except PyError (FloatCtrlState × List (Option ℚ))) :
    Option FloatCtrlState :=
  match r with
  | Except.ok p => Option.some p.1
  | Except.error _ => Option.none

/-- Projection: the callback invocations of a successful method result. -/
def resCalls (r : Except PyError (FloatCtrlState × List (Option ℚ))) :
    Option (List (Option ℚ)) :=
  match r with
  | Except.ok p => Option.some p.2
  | Except.error _ => Option.none

/-! ## Claim-side notions and concrete states -/

/-- The claim-side invariant notion: a value is stored and it lies within
`[min, max]`, an unset bound imposing no constraint. -/
def valueInBounds (c : FloatCtrlState) : Prop :=
  ∃ q, c.val = Option.some q ∧
    (∀ m, c.fmin = Option.some m → m ≤ q) ∧
    (∀ M, c.fmax = Option.some M → q ≤ M)

/-- A control holding 0 with bounds `[0, 100]` and precision 3. -/
def sampleCtrl : FloatCtrlState :=
  { val := Option.some 0, bound_val := Option.some 0, valid := true,
    fmin := Option.some 0, fmax := Option.some 100, prec := 3,
    fg := fgcol_valid, bg := bgcol_valid, text := "0.000", sel := 0, mark := 0 }

/-- A control holding 50 with bounds `[0, 100]` and precision 2 (the
scenario of the specification). -/
def boundedCtrl : FloatCtrlState :=
  { val := Option.some 50, bound_val := Option.some 50, valid := true,
    fmin := Option.some 0, fmax := Option.some 100, prec := 2,
    fg := fgcol_valid, bg := bgcol_valid, text := "50.00", sel := 0, mark := 0 }

/-- A control holding 0 with both bounds unset. -/
def unboundedCtrl : FloatCtrlState :=
  { val := Option.some 0, bound_val := Option.some 0, valid := true,
    fmin := Option.none, fmax := Option.none, prec := 3,
    fg := fgcol_valid, bg := bgcol_valid, text := "0.000", sel := 0, mark := 0 }

/-- A valid control holding 5 with bounds `[0, 10]`. -/
def validCtrl5 : FloatCtrlState :=
  { val := Option.some 5, bound_val := Option.some 5, valid := true,
    fmin := Option.some 0, fmax := Option.some 10, prec := 3,
    fg := fgcol_valid, bg := bgcol_valid, text := "5.000", sel := 0, mark := 0 }

/-- A control whose buffer reads `-5` with the caret at position 0. -/
def minusCtrl : FloatCtrlState :=
  { val := Option.some (-5), bound_val := Option.some (-5), valid := true,
    fmin := Option.none, fmax := Option.none, prec := 3,
    fg := fgcol_valid, bg := bgcol_valid, text := "-5", sel := 0, mark := 0 }

/-- A control in which no numeric value was ever accepted (`__val` is still
`None`) and whose precision is 0. -/
def freshCtrl : FloatCtrlState :=
  { val := Option.none, bound_val := Option.none, valid := true,
    fmin := Option.none, fmax := Option.none, prec := 0,
    fg := fgcol_valid, bg := bgcol_valid, text := "", sel := 0, mark := 0 }

/-- The state after `SetValue("2.5")` on `sampleCtrl`. -/
def c9res : FloatCtrlState :=
  (resState (SetValue sampleCtrl (PyVal.pystr "2.5") true)).getD sampleCtrl

/-- The state after `SetValue("750")` on `boundedCtrl`. -/
def c4res : FloatCtrlState :=
  (resState (SetValue boundedCtrl (PyVal.pystr "750") true)).getD boundedCtrl

/-! ## Lemmas: decimal formatting parses back -/

theorem digitChar_isDigit (d : Nat) (h : d < 10) :
    (Nat.digitChar d).isDigit = true := by
  interval_cases d <;> decide

theorem digToNat_digitChar (d : Nat) (h : d < 10) :
    digToNat (Nat.digitChar d) = d := by
  interval_cases d <;> decide

theorem valDigits_reverse (l : List Char) : valDigits l.reverse = valRev l := by
  induction l with
  | nil => rfl
  | cons c t ih =>
    simp only [List.reverse_cons, valDigits, List.foldl_append, List.foldl_cons,
      List.foldl_nil]
    simp only [valDigits] at ih
    rw [ih]
    simp only [valRev]
    ring

theorem valRev_digitsRevFuel : ∀ f n, n ≤ f → valRev (digitsRevFuel f n) = n := by
  intro f
  induction f with
  | zero =>
    intro n h
    have : n = 0 := Nat.le_zero.mp h
    subst this
    rfl
  | succ f ih =>
    intro n h
    cases n with
    | zero => rfl
    | succ m =>
      have hd : (m + 1) / 10 ≤ f := by
        have := Nat.div_lt_self (Nat.succ_pos m) (by norm_num : 1 < 10)
        omega
      simp only [digitsRevFuel, valRev, ih _ hd]
      rw [digToNat_digitChar _ (Nat.mod_lt _ (by norm_num))]
      have := Nat.mod_add_div (m + 1) 10
      omega

theorem digitsRevFuel_isDigit :
    ∀ f n c, c ∈ digitsRevFuel f n → c.isDigit = true := by
  intro f
  induction f with
  | zero => intro n c hc; cases hc
  | succ f ih =>
    intro n c hc
    cases n with
    | zero => cases hc
    | succ m =>
      simp only [digitsRevFuel, List.mem_cons] at hc
      rcases hc with h | h
      · subst h
        exact digitChar_isDigit _ (Nat.mod_lt _ (by norm_num))
      · exact ih _ _ h

theorem digitsRevFuel_length :
    ∀ f n p, n < 10 ^ p → (digitsRevFuel f n).length ≤ p := by
  intro f
  induction f with
  | zero => intro n p _; simp [digitsRevFuel]
  | succ f ih =>
    intro n p hn
    cases n with
    | zero => simp [digitsRevFuel]
    | succ m =>
      cases p with
      | zero => simp at hn
      | succ q =>
        have hq : (m + 1) / 10 < 10 ^ q := by
          rw [Nat.div_lt_iff_lt_mul (by norm_num : 0 < 10)]
          calc m + 1 < 10 ^ (q + 1) := hn
            _ = 10 ^ q * 10 := by rw [pow_succ]
        simp only [digitsRevFuel, List.length_cons]
        exact Nat.succ_le_succ (ih _ _ hq)

theorem natRepr_isDigit (n : Nat) : ∀ c ∈ natRepr n, c.isDigit = true := by
  intro c hc
  unfold natRepr at hc
  by_cases h : n = 0
  · simp [h] at hc
    subst hc
    decide
  · rw [if_neg h, List.mem_reverse] at hc
    exact digitsRevFuel_isDigit _ _ _ hc

theorem valDigits_natRepr (n : Nat) : valDigits (natRepr n) = n := by
  unfold natRepr
  by_cases h : n = 0
  · subst h; decide
  · rw [if_neg h, valDigits_reverse]
    exact valRev_digitsRevFuel n n le_rfl

theorem natRepr_ne_nil (n : Nat) : natRepr n ≠ [] := by
  unfold natRepr
  by_cases h : n = 0
  · simp [h]
  · rw [if_neg h]
    cases n with
    | zero => exact absurd rfl h
    | succ m =>
      simp [natDigitsRev, digitsRevFuel]

theorem natRepr_length_le (n p : Nat) (h : n < 10 ^ p) (hp : 0 < p) :
    (natRepr n).length ≤ p := by
  unfold natRepr
  by_cases h0 : n = 0
  · simp [h0]; omega
  · rw [if_neg h0, List.length_reverse]
    exact digitsRevFuel_length _ _ _ h

theorem valDigits_padFrac (p : Nat) (ds : List Char) :
    valDigits (padFrac p ds) = valDigits ds := by
  unfold padFrac valDigits
  rw [List.foldl_append]
  have : ∀ k, List.foldl (fun a c => 10 * a + digToNat c) 0 (List.replicate k '0') = 0 := by
    intro k
    induction k with
    | zero => rfl
    | succ k ih => simpa [List.replicate_succ, digToNat] using ih
  rw [this]

theorem padFrac_length (p : Nat) (ds : List Char) (h : ds.length ≤ p) :
    (padFrac p ds).length = p := by
  simp [padFrac]
  omega

theorem padFrac_isDigit (p : Nat) (ds : List Char)
    (h : ∀ c ∈ ds, c.isDigit = true) : ∀ c ∈ padFrac p ds, c.isDigit = true := by
  intro c hc
  rcases List.mem_append.mp hc with h1 | h1
  · have := List.eq_of_mem_replicate h1
    subst this
    decide
  · exact h _ h1

theorem not_dot_of_digits (l : List Char) (h : ∀ c ∈ l, c.isDigit = true) :
    '.' ∉ l := by
  intro hmem
  have := h _ hmem
  exact absurd this (by decide)

theorem dotSplit_no_dot (cs : List Char) (h : '.' ∉ cs) : dotSplit cs = (cs, []) := by
  induction cs with
  | nil => rfl
  | cons c t ih =>
    have hc : ¬ c = '.' := fun hh => h (hh ▸ List.mem_cons_self c t)
    have ht : '.' ∉ t := fun hh => h (List.mem_cons_of_mem c hh)
    simp [dotSplit, hc, ih ht]

theorem dotSplit_append (xs ys : List Char) (h : '.' ∉ xs) :
    dotSplit (xs ++ '.' :: ys) = (xs, (dotSplit ys).1 :: (dotSplit ys).2) := by
  induction xs with
  | nil => simp [dotSplit]
  | cons c t ih =>
    have hc : ¬ c = '.' := fun hh => h (hh ▸ List.mem_cons_self c t)
    have ht : '.' ∉ t := fun hh => h (List.mem_cons_of_mem c hh)
    simp [dotSplit, hc, ih ht]

theorem pyFloatBody_fmtBody (p m : Nat) (neg : Bool) :
    pyFloatBody neg (fmtBody p m) = Option.some (msign neg ((m : ℚ) / (10 : ℚ) ^ p)) := by
  by_cases hp : p = 0
  · subst hp
    unfold fmtBody
    rw [if_pos rfl]
    unfold pyFloatBody
    rw [dotSplit_no_dot _ (not_dot_of_digits _ (natRepr_isDigit m))]
    have hall : (natRepr m).all Char.isDigit = true :=
      List.all_eq_true.mpr (fun c hc => natRepr_isDigit m c hc)
    have hne : (natRepr m).isEmpty = false := by
      cases hr : natRepr m with
      | nil => exact absurd hr (natRepr_ne_nil m)
      | cons a t => rfl
    simp only [hall, hne, Bool.not_false, Bool.and_true, if_pos, valDigits_natRepr]
    norm_num
  · have hp0 : 0 < p := Nat.pos_of_ne_zero hp
    unfold fmtBody
    rw [if_neg hp]
    unfold pyFloatBody
    have hfr : '.' ∉ padFrac p (natRepr (m % 10 ^ p)) :=
      not_dot_of_digits _ (padFrac_isDigit _ _ (natRepr_isDigit _))
    rw [dotSplit_append _ _ (not_dot_of_digits _ (natRepr_isDigit _)),
      dotSplit_no_dot _ hfr]
    have hallip : (natRepr (m / 10 ^ p)).all Char.isDigit = true :=
      List.all_eq_true.mpr (fun c hc => natRepr_isDigit _ c hc)
    have hallfp : (padFrac p (natRepr (m % 10 ^ p))).all Char.isDigit = true :=
      List.all_eq_true.mpr (fun c hc => padFrac_isDigit _ _ (natRepr_isDigit _) c hc)
    have hne : (natRepr (m / 10 ^ p)).isEmpty = false := by
      cases hr : natRepr (m / 10 ^ p) with
      | nil => exact absurd hr (natRepr_ne_nil _)
      | cons a t => rfl
    have hlen : (padFrac p (natRepr (m % 10 ^ p))).length = p :=
      padFrac_length _ _ (natRepr_length_le _ _ (Nat.mod_lt _ (by positivity)) hp0)
    simp only [hallip, hallfp, hne, Bool.not_false, Bool.true_and, Bool.and_self,
      Bool.true_or, Bool.and_true, if_pos, valDigits_padFrac, valDigits_natRepr, hlen]
    congr 1
    congr 1
    have hdm : m / 10 ^ p * 10 ^ p + m % 10 ^ p = m := Nat.div_add_mod' m (10 ^ p)
    rw [hdm, Rat.mkRat_eq_div]
    push_cast
    rfl

theorem pyFloatCore_digit_head (c : Char) (r : List Char) (h : c.isDigit = true) :
    pyFloatCore (c :: r) = pyFloatBody false (c :: r) := by
  have h1 : ¬ c = '-' := by intro hh; rw [hh] at h; exact absurd h (by decide)
  have h2 : ¬ c = '+' := by intro hh; rw [hh] at h; exact absurd h (by decide)
  simp [pyFloatCore, h1, h2]

theorem fmtBody_head (p m : Nat) :
    ∃ c t, fmtBody p m = c :: t ∧ c.isDigit = true := by
  unfold fmtBody
  by_cases hp : p = 0
  · rw [if_pos hp]
    cases hr : natRepr m with
    | nil => exact absurd hr (natRepr_ne_nil m)
    | cons c t =>
      exact ⟨c, t, rfl, natRepr_isDigit m c (hr ▸ List.mem_cons_self c t)⟩
  · rw [if_neg hp]
    cases hr : natRepr (m / 10 ^ p) with
    | nil => exact absurd hr (natRepr_ne_nil _)
    | cons c t =>
      refine ⟨c, t ++ '.' :: padFrac p (natRepr (m % 10 ^ p)), by simp, ?_⟩
      exact natRepr_isDigit _ c (hr ▸ List.mem_cons_self c t)

theorem pyFloatCore_fmtCore (p : Nat) (n : ℤ) :
    pyFloatCore (fmtCore p n) = Option.some ((n : ℚ) / (10 : ℚ) ^ p) := by
  unfold fmtCore
  by_cases hn : n < 0
  · rw [if_pos hn]
    show pyFloatCore ('-' :: fmtBody p n.natAbs) = _
    have : pyFloatCore ('-' :: fmtBody p n.natAbs) = pyFloatBody true (fmtBody p n.natAbs) := by
      simp [pyFloatCore]
    rw [this, pyFloatBody_fmtBody]
    have habs : ((n.natAbs : ℚ)) = -(n : ℚ) := by
      rw [Int.cast_natAbs]
      exact_mod_cast abs_of_neg hn
    rw [msign, if_pos rfl, habs]
    congr 1
    ring
  · rw [if_neg hn, List.nil_append]
    obtain ⟨c, t, heq, hdig⟩ := fmtBody_head p n.natAbs
    rw [heq, pyFloatCore_digit_head c t hdig, ← heq, pyFloatBody_fmtBody]
    have habs : ((n.natAbs : ℚ)) = (n : ℚ) := by
      rw [Int.cast_natAbs]
      exact_mod_cast abs_of_nonneg (not_lt.mp hn)
    rw [msign, if_neg (by decide), habs]

/-! ## Lemmas about the bounds check and the commit path -/

/-- Whether the min bound check of `__CheckValid` passes (helper for proofs). -/
def passMin (mn : Option ℚ) (v : Option ℚ) : Bool :=
  match mn with
  | Option.none => true
  | Option.some m => !(py2lt v m)

/-- Whether the max bound check of `__CheckValid` passes on the unclamped
value (helper for proofs). -/
def passMax (mx : Option ℚ) (v : Option ℚ) : Bool :=
  match mx with
  | Option.none => true
  | Option.some m => !(py2gt v m)

theorem checkVal_fst (mn mx : Option ℚ) (v : Option ℚ) :
    (checkVal mn mx v).1 = (passMin mn v && passMax mx v) := by
  unfold checkVal passMin passMax
  cases mn with
  | none =>
    cases mx with
    | none => rfl
    | some M => by_cases hg : py2gt v M = true <;> simp [hg]
  | some m =>
    by_cases hl : py2lt v m = true
    · cases mx with
      | none => simp [hl]
      | some M => by_cases hg : py2gt (Option.some m) M = true <;> simp [hl, hg]
    · cases mx with
      | none => simp [hl]
      | some M => by_cases hg : py2gt v M = true <;> simp [hl, hg]

theorem checkVal_pass (mn mx : Option ℚ) (v : Option ℚ)
    (h1 : passMin mn v = true) (h2 : passMax mx v = true) :
    checkVal mn mx v = (true, v) := by
  unfold checkVal
  cases mn with
  | none =>
    cases mx with
    | none => rfl
    | some M =>
      have : py2gt v M = false := by simpa [passMax] using h2
      simp [this]
  | some m =>
    have hm : py2lt v m = false := by simpa [passMin] using h1
    cases mx with
    | none => simp [hm]
    | some M =>
      have hM : py2gt v M = false := by simpa [passMax] using h2
      simp [hm, hM]

theorem checkVal_snd_of_true (mn mx : Option ℚ) (v : Option ℚ)
    (h : (checkVal mn mx v).1 = true) : (checkVal mn mx v).2 = v := by
  have hf := checkVal_fst mn mx v
  rw [h] at hf
  have hp : passMin mn v = true ∧ passMax mx v = true := by simpa using hf.symm
  obtain ⟨h1, h2⟩ := hp
  rw [checkVal_pass mn mx v h1 h2]

theorem checkVal_snd_some_of_false (mn mx : Option ℚ) (v : Option ℚ)
    (h : (checkVal mn mx v).1 = false) :
    ∃ b, (checkVal mn mx v).2 = Option.some b := by
  unfold checkVal at h ⊢
  cases mn with
  | none =>
    cases mx with
    | none => simp at h
    | some M =>
      by_cases hg : py2gt v M = true
      · exact ⟨M, by simp [hg]⟩
      · simp [hg] at h
  | some m =>
    by_cases hl : py2lt v m = true
    · cases mx with
      | none => exact ⟨m, by simp [hl]⟩
      | some M =>
        by_cases hg : py2gt (Option.some m) M = true
        · exact ⟨M, by simp [hl, hg]⟩
        · exact ⟨m, by simp [hl, hg]⟩
    · cases mx with
      | none => simp [hl] at h
      | some M =>
        by_cases hg : py2gt v M = true
        · exact ⟨M, by simp [hl, hg]⟩
        · simp [hl, hg] at h

theorem checkVal_min_fail (mn mx : Option ℚ) (v : Option ℚ) (m : ℚ)
    (hmn : mn = Option.some m) (hl : py2lt v m = true)
    (h2 : ∀ M, mx = Option.some M → py2gt (Option.some m) M = false) :
    checkVal mn mx v = (false, Option.some m) := by
  subst hmn
  unfold checkVal
  cases mx with
  | none => simp [hl]
  | some M => simp [hl, h2 M rfl]

theorem checkVal_max_fail (mn mx : Option ℚ) (v : Option ℚ) (M : ℚ)
    (h1 : ∀ m, mn = Option.some m → py2lt v m = false)
    (hmx : mx = Option.some M) (hg : py2gt v M = true) :
    checkVal mn mx v = (false, Option.some M) := by
  subst hmx
  unfold checkVal
  cases mn with
  | none => simp [hg]
  | some m => simp [h1 m rfl, hg]

theorem SetValue_pass (c : FloatCtrlState) (value : PyVal) (act : Bool) (w : ℚ)
    (h : checkVal c.fmin c.fmax (set_float (svArg c value) Option.none)
      = (true, Option.some w)) :
    SetValue c value act = Except.ok
      ({ c with valid := true, bound_val := Option.some w, val := Option.some w,
                fg := fgcol_valid, bg := bgcol_valid,
                text := formatFix c.prec w,
                mark := Nat.min c.sel (pyStrip c.text).length,
                sel := Nat.min (Nat.min c.sel (pyStrip c.text).length)
                  (formatFix c.prec w).length },
       if act then [Option.some w] else []) := by
  unfold SetValue CheckValid GetMark Text_SetValue SetMark
  rw [h]
  simp [pyOfOpt, set_float]

theorem SetValue_pass_none (c : FloatCtrlState) (value : PyVal) (act : Bool)
    (h : checkVal c.fmin c.fmax (set_float (svArg c value) Option.none)
      = (true, Option.none)) :
    SetValue c value act = Except.error PyError.typeError := by
  unfold SetValue CheckValid GetMark Text_SetValue SetMark
  rw [h]
  simp [pyOfOpt, set_float]

theorem SetValue_fail_revalid (c : FloatCtrlState) (value : PyVal) (act : Bool) (b : ℚ)
    (h : checkVal c.fmin c.fmax (set_float (svArg c value) Option.none)
      = (false, Option.some b))
    (h2 : checkVal c.fmin c.fmax (Option.some b) = (true, Option.some b)) :
    SetValue c value act = Except.ok
      ({ c with valid := true, bound_val := Option.some b, val := Option.some b,
                fg := fgcol_invalid, bg := bgcol_invalid,
                text := formatFix c.prec b,
                mark := Nat.min c.sel (pyStrip c.text).length,
                sel := Nat.min (Nat.min c.sel (pyStrip c.text).length)
                  (formatFix c.prec b).length },
       []) := by
  unfold SetValue CheckValid GetMark Text_SetValue SetMark
  rw [h]
  simp [pyOfOpt, set_float, h2]

theorem SetValue_fail_refail (c : FloatCtrlState) (value : PyVal) (act : Bool)
    (b : ℚ) (w2 : Option ℚ)
    (h : checkVal c.fmin c.fmax (set_float (svArg c value) Option.none)
      = (false, Option.some b))
    (h2 : checkVal c.fmin c.fmax (Option.some b) = (false, w2)) :
    SetValue c value act = Except.ok
      ({ c with valid := false, bound_val := w2, val := Option.some b,
                fg := fgcol_invalid, bg := bgcol_invalid,
                text := formatFix c.prec b,
                mark := Nat.min c.sel (pyStrip c.text).length,
                sel := Nat.min (Nat.min c.sel (pyStrip c.text).length)
                  (formatFix c.prec b).length },
       []) := by
  unfold SetValue CheckValid GetMark Text_SetValue SetMark
  rw [h]
  simp [pyOfOpt, set_float, h2]

theorem pyFloat_empty : pyFloat "" = Option.none := rfl

theorem set_float_pystr (s : String) (v : ℚ) (hp : pyFloat s = Option.some v) :
    set_float (PyVal.pystr s) Option.none = Option.some v := by
  have hsne : ¬ s = "" := by
    intro he
    rw [he, pyFloat_empty] at hp
    exact Option.noConfusion hp
  show (if s = "" then Option.none
    else
      match pyFloat s with
      | Option.some q => Option.some q
      | Option.none => Option.none) = Option.some v
  rw [if_neg hsne, hp]

theorem passMin_true_iff (mn : Option ℚ) (q : ℚ) :
    passMin mn (Option.some q) = true ↔ ∀ m, mn = Option.some m → m ≤ q := by
  cases mn with
  | none =>
    constructor
    · intro _ m hm; exact Option.noConfusion hm
    · intro _; rfl
  | some m =>
    constructor
    · intro h m0 hm0
      injection hm0 with he
      subst he
      have : py2lt (Option.some q) m = false := by simpa [passMin] using h
      have : ¬ q < m := by simpa [py2lt] using this
      exact not_lt.mp this
    · intro h
      have hle := h m rfl
      simp [passMin, py2lt, not_lt.mpr hle]

theorem passMax_true_iff (mx : Option ℚ) (q : ℚ) :
    passMax mx (Option.some q) = true ↔ ∀ M, mx = Option.some M → q ≤ M := by
  cases mx with
  | none =>
    constructor
    · intro _ M hM; exact Option.noConfusion hM
    · intro _; rfl
  | some M =>
    constructor
    · intro h M0 hM0
      injection hM0 with he
      subst he
      have : py2gt (Option.some q) M = false := by simpa [passMax] using h
      have : ¬ M < q := by simpa [py2gt] using this
      exact not_lt.mp this
    · intro h
      have hle := h M rfl
      simp [passMax, py2gt, not_lt.mpr hle]

theorem passMin_false_iff (mn : Option ℚ) (q : ℚ) :
    passMin mn (Option.some q) = false ↔ ∃ m, mn = Option.some m ∧ q < m := by
  cases mn with
  | none =>
    constructor
    · intro h; exact absurd h (by simp [passMin])
    · rintro ⟨m, hm, _⟩; exact Option.noConfusion hm
  | some m =>
    constructor
    · intro h
      refine ⟨m, rfl, ?_⟩
      simpa [passMin, py2lt] using h
    · rintro ⟨m0, hm0, hlt⟩
      injection hm0 with he
      subst he
      simp [passMin, py2lt, hlt]

theorem passMax_false_iff (mx : Option ℚ) (q : ℚ) :
    passMax mx (Option.some q) = false ↔ ∃ M, mx = Option.some M ∧ M < q := by
  cases mx with
  | none =>
    constructor
    · intro h; exact absurd h (by simp [passMax])
    · rintro ⟨M, hM, _⟩; exact Option.noConfusion hM
  | some M =>
    constructor
    · intro h
      refine ⟨M, rfl, ?_⟩
      simpa [passMax, py2gt] using h
    · rintro ⟨M0, hM0, hlt⟩
      injection hM0 with he
      subst he
      simp [passMax, py2gt, hlt]

/-! ## The claims -/

/-- C1: for every value `v` within the bounds (an unset bound imposing no
constraint), `SetValue` with a text denoting `v` leaves the control valid
with stored value `v` and invokes the commit callback exactly once with
that value (the fixed auxiliary keyword arguments of the `closure` wrapper
are forwarded unchanged on every invocation). -/
theorem C1_setvalue_in_range_commits (c : FloatCtrlState) (s : String) (v : ℚ)
    (hp : pyFloat s = Option.some v)
    (hmin : ∀ m, c.fmin = Option.some m → m ≤ v)
    (hmax : ∀ M, c.fmax = Option.some M → v ≤ M) :
    ∃ c', SetValue c (PyVal.pystr s) true = Except.ok (c', [Option.some v]) ∧
      c'.valid = true ∧ c'.val = Option.some v := by
  have harg : set_float (svArg c (PyVal.pystr s)) Option.none = Option.some v :=
    set_float_pystr s v hp
  have hcv : checkVal c.fmin c.fmax (set_float (svArg c (PyVal.pystr s)) Option.none)
      = (true, Option.some v) := by
    rw [harg]
    exact checkVal_pass _ _ _ ((passMin_true_iff _ _).mpr hmin)
      ((passMax_true_iff _ _).mpr hmax)
  have hsv := SetValue_pass c (PyVal.pystr s) true v hcv
  simp only [if_pos] at hsv
  exact ⟨_, hsv, rfl, rfl⟩

/-- Witness for C1: committing the text `2.5` on a control bounded by
`[0, 100]` succeeds, stores `5/2` and fires the callback once with it. -/
theorem C1_witness :
    pyFloat "2.5" = Option.some (mkRat 5 2) ∧
    (∃ c', SetValue sampleCtrl (PyVal.pystr "2.5") true
        = Except.ok (c', [Option.some (mkRat 5 2)]) ∧
      c'.valid = true ∧ c'.val = Option.some (mkRat 5 2)) := by
  refine ⟨by decide, ?_⟩
  refine C1_setvalue_in_range_commits sampleCtrl "2.5" (mkRat 5 2) (by decide) ?_ ?_
  · intro m hm
    have h0 : (Option.some (0 : ℚ)) = Option.some m := hm
    injection h0 with h0
    rw [← h0]
    decide
  · intro M hM
    have h0 : (Option.some (100 : ℚ)) = Option.some M := hM
    injection h0 with h0
    rw [← h0]
    decide

/-- C2 counterexample: the claim asserts `isValid == false` after an
out-of-range commit, but on `SetValue("750")` with bounds `[0, 100]` the
source re-validates the clamped value, so the final `__valid` flag is
`True` (the stored value is the clamped 100 and no callback fires). -/
theorem C2_counterexample :
    (resState (SetValue boundedCtrl (PyVal.pystr "750") true)).map FloatCtrlState.valid
      = Option.some true ∧
    (resState (SetValue boundedCtrl (PyVal.pystr "750") true)).map FloatCtrlState.val
      = Option.some (Option.some 100) ∧
    resCalls (SetValue boundedCtrl (PyVal.pystr "750") true) = Option.some [] := by
  refine ⟨by decide, by decide, by decide⟩

/-- C2 as amended: a parsed value violating a bound is clamped to that
bound, the callback is not invoked and the invalid visual state is set;
however the internal `isValid` flag ends `true`, because the clamped value
is re-validated by the second `__CheckValid` call of the invalid branch. -/
theorem C2_amended_clamp_no_callback (c : FloatCtrlState) (s : String) (v : ℚ)
    (hp : pyFloat s = Option.some v) :
    (∀ m, c.fmin = Option.some m → v < m →
      (∀ M, c.fmax = Option.some M → m ≤ M) →
      ∃ c', SetValue c (PyVal.pystr s) true = Except.ok (c', []) ∧
        c'.val = Option.some m ∧ c'.valid = true ∧
        c'.fg = fgcol_invalid ∧ c'.bg = bgcol_invalid) ∧
    (∀ M, c.fmax = Option.some M → M < v →
      (∀ m, c.fmin = Option.some m → m ≤ M) →
      ∃ c', SetValue c (PyVal.pystr s) true = Except.ok (c', []) ∧
        c'.val = Option.some M ∧ c'.valid = true ∧
        c'.fg = fgcol_invalid ∧ c'.bg = bgcol_invalid) := by
  have harg : set_float (svArg c (PyVal.pystr s)) Option.none = Option.some v :=
    set_float_pystr s v hp
  constructor
  · intro m hmn hlt hle
    have hcv : checkVal c.fmin c.fmax (set_float (svArg c (PyVal.pystr s)) Option.none)
        = (false, Option.some m) := by
      rw [harg]
      refine checkVal_min_fail _ _ _ m hmn ?_ ?_
      · simp [py2lt, hlt]
      · intro M hM
        simp [py2gt, not_lt.mpr (hle M hM)]
    have hre : checkVal c.fmin c.fmax (Option.some m) = (true, Option.some m) := by
      refine checkVal_pass _ _ _ ?_ ?_
      · refine (passMin_true_iff _ _).mpr ?_
        intro m0 hm0
        rw [hmn] at hm0
        injection hm0 with he
        rw [← he]
      · refine (passMax_true_iff _ _).mpr ?_
        intro M hM
        exact hle M hM
    exact ⟨_, SetValue_fail_revalid c (PyVal.pystr s) true m hcv hre, rfl, rfl, rfl, rfl⟩
  · intro M hmx hlt hle
    have hcv : checkVal c.fmin c.fmax (set_float (svArg c (PyVal.pystr s)) Option.none)
        = (false, Option.some M) := by
      rw [harg]
      refine checkVal_max_fail _ _ _ M ?_ hmx ?_
      · intro m hm
        have h1 : m ≤ M := hle m hm
        have h2 : ¬ v < m := not_lt.mpr (le_of_lt (lt_of_le_of_lt h1 hlt))
        simp [py2lt, h2]
      · simp [py2gt, hlt]
    have hre : checkVal c.fmin c.fmax (Option.some M) = (true, Option.some M) := by
      refine checkVal_pass _ _ _ ?_ ?_
      · refine (passMin_true_iff _ _).mpr ?_
        intro m hm
        exact hle m hm
      · refine (passMax_true_iff _ _).mpr ?_
        intro M0 hM0
        rw [hmx] at hM0
        injection hM0 with he
        rw [← he]
    exact ⟨_, SetValue_fail_revalid c (PyVal.pystr s) true M hcv hre, rfl, rfl, rfl, rfl⟩

/-- Witness for the amended C2: `SetValue("750")` with bounds `[0, 100]`
clamps to 100, fires no callback, shows the invalid colours, and ends with
`isValid == true`. -/
theorem C2_amended_witness :
    ∃ c', SetValue boundedCtrl (PyVal.pystr "750") true = Except.ok (c', []) ∧
      c'.val = Option.some 100 ∧ c'.valid = true ∧
      c'.fg = fgcol_invalid ∧ c'.bg = bgcol_invalid := by
  refine (C2_amended_clamp_no_callback boundedCtrl "750" 750 (by decide)).2
    100 rfl (by decide) ?_
  intro m hm
  have h0 : (Option.some (0 : ℚ)) = Option.some m := hm
  injection h0 with h0
  rw [← h0]
  decide

/-- C3: the claim says an unparsable text leaves the control invalid with
the previous value and that no exception escapes; under Python 2 the
`set_float` default defeats the dead `except` branch of `__CheckValid`
(and its dead initial `v = self.__val`), so with no bounds set the `None`
parse result is judged valid and `__Text_SetValue` raises `TypeError`
from `'%.3f' % None`, which propagates out of `SetValue`. -/
theorem C3_unparsable_raises :
    pyFloat "abc" = Option.none ∧
    SetValue unboundedCtrl (PyVal.pystr "abc") true = Except.error PyError.typeError := by
  exact ⟨by decide, rfl⟩

/-- C4 counterexample: the claimed invariant `isValid ⇔ value ∈ [min, max]`
is not preserved by `SetMin`, which stores the new bound without
re-validating: raising the min bound of a valid control to 10 leaves
`isValid == true` while the stored value 5 is now below the bound. -/
theorem C4_counterexample :
    (validCtrl5.valid = true ↔ valueInBounds validCtrl5) ∧
    (SetMin validCtrl5 (PyVal.pynum 10)).valid = true ∧
    ¬ valueInBounds (SetMin validCtrl5 (PyVal.pynum 10)) := by
  refine ⟨⟨fun _ => ⟨5, rfl, ?_, ?_⟩, fun _ => rfl⟩, rfl, ?_⟩
  · intro m hm
    have h0 : (Option.some (0 : ℚ)) = Option.some m := hm
    injection h0 with h0
    rw [← h0]
    decide
  · intro M hM
    have h0 : (Option.some (10 : ℚ)) = Option.some M := hM
    injection h0 with h0
    rw [← h0]
    decide
  · rintro ⟨q, hq, hmin, _⟩
    have hq5 : (Option.some (5 : ℚ)) = Option.some q := hq
    injection hq5 with hq5
    have h10 : (10 : ℚ) ≤ q := hmin 10 rfl
    rw [← hq5] at h10
    exact absurd h10 (by decide)

/-- C4 as amended: the biconditional `isValid == true ⇔ the stored value
lies within [min, max]` holds after every `SetValue` that returns normally;
it is not maintained by `SetMin` / `SetMax` (no re-validation) nor by
`onText` (which can flag invalidity without touching the stored value). -/
theorem C4_amended_invariant (c : FloatCtrlState) (value : PyVal) (act : Bool)
    (c' : FloatCtrlState) (calls : List (Option ℚ))
    (h : SetValue c value act = Except.ok (c', calls)) :
    c'.valid = true ↔ valueInBounds c' := by
  rcases hcv : checkVal c.fmin c.fmax (set_float (svArg c value) Option.none)
    with ⟨fst, snd⟩
  cases fst with
  | true =>
    have h1 : (checkVal c.fmin c.fmax (set_float (svArg c value) Option.none)).1
        = true := by rw [hcv]
    have hsnd : snd = set_float (svArg c value) Option.none := by
      have hx := checkVal_snd_of_true _ _ _ h1
      rw [hcv] at hx
      exact hx
    cases hv0 : set_float (svArg c value) Option.none with
    | none =>
      rw [hv0] at hsnd
      subst hsnd
      rw [SetValue_pass_none c value act hcv] at h
      exact Except.noConfusion h
    | some w =>
      rw [hv0] at hsnd
      subst hsnd
      rw [SetValue_pass c value act w hcv] at h
      injection h with hpair
      injection hpair with hst hcl
      subst hst
      have hf := checkVal_fst c.fmin c.fmax (set_float (svArg c value) Option.none)
      rw [hcv, hv0] at hf
      have hpass : passMin c.fmin (Option.some w) = true ∧
          passMax c.fmax (Option.some w) = true := by
        simpa using hf.symm
      constructor
      · intro _
        refine ⟨w, rfl, ?_, ?_⟩
        · intro m hm
          exact (passMin_true_iff _ _).mp hpass.1 m hm
        · intro M hM
          exact (passMax_true_iff _ _).mp hpass.2 M hM
      · intro _
        rfl
  | false =>
    have h1 : (checkVal c.fmin c.fmax (set_float (svArg c value) Option.none)).1
        = false := by rw [hcv]
    obtain ⟨b, hb⟩ := checkVal_snd_some_of_false _ _ _ h1
    rw [hcv] at hb
    have hb' : snd = Option.some b := hb
    subst hb'
    rcases hcv2 : checkVal c.fmin c.fmax (Option.some b) with ⟨f2, s2⟩
    cases f2 with
    | true =>
      have h2 : (checkVal c.fmin c.fmax (Option.some b)).1 = true := by rw [hcv2]
      have hs2 : s2 = Option.some b := by
        have hx := checkVal_snd_of_true _ _ _ h2
        rw [hcv2] at hx
        exact hx
      subst hs2
      rw [SetValue_fail_revalid c value act b hcv hcv2] at h
      injection h with hpair
      injection hpair with hst hcl
      subst hst
      have hf := checkVal_fst c.fmin c.fmax (Option.some b)
      rw [hcv2] at hf
      have hpass : passMin c.fmin (Option.some b) = true ∧
          passMax c.fmax (Option.some b) = true := by
        simpa using hf.symm
      constructor
      · intro _
        refine ⟨b, rfl, ?_, ?_⟩
        · intro m hm
          exact (passMin_true_iff _ _).mp hpass.1 m hm
        · intro M hM
          exact (passMax_true_iff _ _).mp hpass.2 M hM
      · intro _
        rfl
    | false =>
      have h2 : (checkVal c.fmin c.fmax (Option.some b)).1 = false := by rw [hcv2]
      have hcv2' : checkVal c.fmin c.fmax (Option.some b) = (false, s2) := hcv2
      rw [SetValue_fail_refail c value act b s2 hcv hcv2'] at h
      injection h with hpair
      injection hpair with hst hcl
      subst hst
      constructor
      · intro hvv
        exact Bool.noConfusion hvv
      · rintro ⟨q, hq, hminb, hmaxb⟩
        have hqb : (Option.some (b : ℚ)) = Option.some q := hq
        injection hqb with hqb
        subst hqb
        have hf := checkVal_fst c.fmin c.fmax (Option.some b)
        rw [hcv2] at hf
        by_cases hA : passMin c.fmin (Option.some b) = true
        · have hB : passMax c.fmax (Option.some b) = false := by
            cases hBc : passMax c.fmax (Option.some b) with
            | false => rfl
            | true =>
              rw [hA, hBc] at hf
              simp at hf
          obtain ⟨M, hM, hlt⟩ := (passMax_false_iff _ _).mp hB
          exact absurd (hmaxb M hM) (not_le.mpr hlt)
        · have hA' : passMin c.fmin (Option.some b) = false := by
            cases hAc : passMin c.fmin (Option.some b) with
            | false => rfl
            | true => exact absurd hAc hA
          obtain ⟨m, hm, hlt⟩ := (passMin_false_iff _ _).mp hA'
          exact absurd (hminb m hm) (not_le.mpr hlt)

/-- Witness for the amended C4: after the clamping commit `SetValue("750")`
on `boundedCtrl` the biconditional holds (both sides are true: the stored
value is the clamped 100, inside `[0, 100]`). -/
theorem C4_witness : c4res.valid = true ↔ valueInBounds c4res := by
  have h : SetValue boundedCtrl (PyVal.pystr "750") true = Except.ok (c4res, []) := rfl
  exact C4_amended_invariant boundedCtrl (PyVal.pystr "750") true c4res [] h

/-- C9: after any `SetValue` that returns normally (valid or invalid path),
the remembered caret is the pre-reformat selection start clamped to the
stripped pre-reformat text, and the final caret is that remembered
position clamped to the new text length — reformatting never otherwise
moves the caret. -/
theorem C9_caret_restored (c : FloatCtrlState) (value : PyVal) (act : Bool)
    (c' : FloatCtrlState) (calls : List (Option ℚ))
    (h : SetValue c value act = Except.ok (c', calls)) :
    c'.mark = Nat.min c.sel (pyStrip c.text).length ∧
    c'.sel = Nat.min c'.mark c'.text.length := by
  rcases hcv : checkVal c.fmin c.fmax (set_float (svArg c value) Option.none)
    with ⟨fst, snd⟩
  cases fst with
  | true =>
    have h1 : (checkVal c.fmin c.fmax (set_float (svArg c value) Option.none)).1
        = true := by rw [hcv]
    have hsnd : snd = set_float (svArg c value) Option.none := by
      have hx := checkVal_snd_of_true _ _ _ h1
      rw [hcv] at hx
      exact hx
    cases hv0 : set_float (svArg c value) Option.none with
    | none =>
      rw [hv0] at hsnd
      subst hsnd
      rw [SetValue_pass_none c value act hcv] at h
      exact Except.noConfusion h
    | some w =>
      rw [hv0] at hsnd
      subst hsnd
      rw [SetValue_pass c value act w hcv] at h
      injection h with hpair
      injection hpair with hst hcl
      subst hst
      exact ⟨rfl, rfl⟩
  | false =>
    have h1 : (checkVal c.fmin c.fmax (set_float (svArg c value) Option.none)).1
        = false := by rw [hcv]
    obtain ⟨b, hb⟩ := checkVal_snd_some_of_false _ _ _ h1
    rw [hcv] at hb
    have hb' : snd = Option.some b := hb
    subst hb'
    rcases hcv2 : checkVal c.fmin c.fmax (Option.some b) with ⟨f2, s2⟩
    cases f2 with
    | true =>
      have h2 : (checkVal c.fmin c.fmax (Option.some b)).1 = true := by rw [hcv2]
      have hs2 : s2 = Option.some b := by
        have hx := checkVal_snd_of_true _ _ _ h2
        rw [hcv2] at hx
        exact hx
      subst hs2
      rw [SetValue_fail_revalid c value act b hcv hcv2] at h
      injection h with hpair
      injection hpair with hst hcl
      subst hst
      exact ⟨rfl, rfl⟩
    | false =>
      have hcv2' : checkVal c.fmin c.fmax (Option.some b) = (false, s2) := hcv2
      rw [SetValue_fail_refail c value act b s2 hcv hcv2'] at h
      injection h with hpair
      injection hpair with hst hcl
      subst hst
      exact ⟨rfl, rfl⟩

/-- Witness for C9: the commit `SetValue("2.5")` on `sampleCtrl` restores
the caret to the remembered position, clamped to the new text. -/
theorem C9_witness :
    c9res.mark = Nat.min sampleCtrl.sel (pyStrip sampleCtrl.text).length ∧
    c9res.sel = Nat.min c9res.mark c9res.text.length := by
  have h : SetValue sampleCtrl (PyVal.pystr "2.5") true
      = Except.ok (c9res, [Option.some (mkRat 5 2)]) := rfl
  exact C9_caret_restored sampleCtrl (PyVal.pystr "2.5") true c9res
    [Option.some (mkRat 5 2)] h

/-- C5 counterexample: the claim says a typed point is rejected exactly
when `precision == 0` or the text already contains a point; but with
precision 3 and the dot-free buffer `-5`, a point typed at caret position 0
is nevertheless consumed, because the filter also rejects any non-minus
character typed before an existing minus sign. -/
theorem C5_counterexample :
    minusCtrl.prec ≠ 0 ∧
    strContains (pyStrip minusCtrl.text) '.' = false ∧
    onChar minusCtrl 46 = Except.ok (minusCtrl, [], CharAction.consume) := by
  exact ⟨by decide, by decide, rfl⟩

/-- C5 as amended: a typed point (key code 46) is rejected exactly when
`precision == 0`, or the text already contains a point, or a minus sign is
present and the caret is at position 0; otherwise it is accepted into the
buffer. -/
theorem C5_amended_dot_filter (c : FloatCtrlState) :
    onChar c 46 = Except.ok (c, [],
      if c.prec == 0 || strContains (pyStrip c.text) '.' ||
         (strContains (pyStrip c.text) '-' && c.sel == 0)
      then CharAction.consume else CharAction.skip) := by
  cases h1 : c.prec == 0 <;>
  cases h2 : strContains (pyStrip c.text) '.' <;>
  cases h3 : strContains (pyStrip c.text) '-' <;>
  cases h4 : c.sel == 0 <;>
  simp [onChar, bne, h1, h2, h3, h4,
    (by decide : Char.ofNat 46 = '.'),
    (by decide : (('.' : Char) == '-')  = false),
    (by decide : (('.' : Char) == '.')  = true),
    (by decide : ctrlDigits.contains '.' = true),
    (by decide : Char.ofNat 46 ∈ ctrlDigits)]

/-- Witness for the amended C5: on `sampleCtrl`, whose buffer `0.000`
already contains a point, a typed point is consumed. -/
theorem C5_witness :
    onChar sampleCtrl 46 = Except.ok (sampleCtrl, [], CharAction.consume) := by
  rw [C5_amended_dot_filter sampleCtrl]
  rfl

/-- C6: the filter rejects a typed minus (key code 45) unless the caret is
at position 0 and the text holds no minus yet (in which case it is
accepted), and rejects every other printable typed character when a minus
is present and the caret is at position 0. -/
theorem C6_minus_filter (c : FloatCtrlState) (key : Nat)
    (h32 : 32 ≤ key) (h255 : key ≤ 255) (h127 : key ≠ 127) :
    (onChar c 45 = Except.ok (c, [],
      if strContains (pyStrip c.text) '-' || !(c.sel == 0)
      then CharAction.consume else CharAction.skip)) ∧
    (Char.ofNat key ≠ '-' → strContains (pyStrip c.text) '-' = true → c.sel = 0 →
      onChar c key = Except.ok (c, [], CharAction.consume)) := by
  constructor
  · cases h3 : strContains (pyStrip c.text) '-' <;>
    cases h4 : c.sel == 0 <;>
    simp [onChar, bne, h3, h4,
      (by decide : Char.ofNat 45 = '-'),
      (by decide : (('-' : Char) == '.')  = false),
      (by decide : (('-' : Char) == '-')  = true),
      (by decide : ctrlDigits.contains '-' = true),
      (by decide : Char.ofNat 45 ∈ ctrlDigits)]
  · intro hck hm hp0
    have hno13 : ¬ key = 13 := by omega
    have hlow : ¬ key < 32 := by omega
    have hhi : ¬ 255 < key := by omega
    have hbck : (Char.ofNat key == '-') = false := by
      cases hc : Char.ofNat key == '-' with
      | false => rfl
      | true => exact absurd (eq_of_beq hc) hck
    simp [onChar, bne, hno13, hlow, hhi, h127, hm, hp0, hbck]

/-- Witness for C6: on the buffer `-5` with the caret at position 0, a
typed minus is consumed (a minus is already present), and the typed digit
9 (key code 57) is also consumed because it would land before the sign. -/
theorem C6_witness :
    onChar minusCtrl 45 = Except.ok (minusCtrl, [], CharAction.consume) ∧
    onChar minusCtrl 57 = Except.ok (minusCtrl, [], CharAction.consume) := by
  have h := C6_minus_filter minusCtrl 57 (by omega) (by omega) (by omega)
  refine ⟨?_, h.2 (by decide) (by decide) rfl⟩
  rw [h.1]
  rfl

/-- C7 counterexample: the claim that full re-validation happens only on
commit (Enter) or explicit `SetValue` fails: the `EVT_TEXT` handler
`onText` runs `__CheckValid` on every nonempty text change, and here it
flips `isValid` to false (leaving the stored value untouched) on a valid
control whose buffer changes to `99` — no commit and no `SetValue`
involved. -/
theorem C7_counterexample :
    validCtrl5.valid = true ∧
    (onText validCtrl5 "99").valid = false ∧
    (onText validCtrl5 "99").val = validCtrl5.val := by
  exact ⟨rfl, rfl, rfl⟩

/-- C7 as amended: handling a non-Enter key in `onChar` performs no
re-validation and leaves the whole state unchanged (in particular the
stored value, validity and bounds) and invokes no callback; however,
beyond commits and explicit `SetValue`, full-buffer re-validation also
runs in the `onText` text-change handler (still without any callback). -/
theorem C7_amended_filter_frame (c : FloatCtrlState) (key : Nat) (hk : key ≠ 13) :
    ∃ d, onChar c key = Except.ok (c, [], d) := by
  unfold onChar
  rw [if_neg hk]
  simp only []
  split
  · exact ⟨_, rfl⟩
  · split
    · exact ⟨_, rfl⟩
    · split
      · exact ⟨_, rfl⟩
      · exact ⟨_, rfl⟩

/-- Witness for the amended C7: the printable non-Enter key `A` (code 65)
leaves `validCtrl5` unchanged and fires no callback. -/
theorem C7_witness :
    (65 : Nat) ≠ 13 ∧ ∃ d, onChar validCtrl5 65 = Except.ok (validCtrl5, [], d) :=
  ⟨by omega, C7_amended_filter_frame validCtrl5 65 (by omega)⟩

/-- C8: round-trip law — for every precision and every value, formatting
with the fixed-point format derived from the precision and parsing the
resulting text yields exactly the value rounded to that many digits after
the decimal point. -/
theorem C8_format_parse_roundtrip (p : Nat) (v : ℚ) :
    pyFloat (formatFix p v) = Option.some (roundPrec p v) := by
  unfold pyFloat formatFix roundPrec
  exact pyFloatCore_fmtCore p (scaledRound p v)

/-- Witness for C8: formatting `5/2` at precision 2 and parsing the result
gives back `5/2` (its own rounding). -/
theorem C8_witness :
    pyFloat (formatFix 2 (mkRat 5 2)) = Option.some (roundPrec 2 (mkRat 5 2)) :=
  C8_format_parse_roundtrip 2 (mkRat 5 2)

/-- C10: when no valid numeric value has ever been accepted (the stored
value is still `None`) and the precision is 0, `GetValue` raises
`TypeError` (the integer cast of `None`) instead of returning a value. -/
theorem C10_getvalue_none_prec0_raises (c : FloatCtrlState)
    (h1 : c.val = Option.none) (h2 : c.prec = 0) :
    GetValue c = Except.error PyError.typeError := by
  unfold GetValue
  rw [h2, h1]
  simp

/-- Witness for C10: on a freshly constructed, never-filled control with
precision 0, `GetValue` raises `TypeError`. -/
theorem C10_witness :
    freshCtrl.val = Option.none ∧ freshCtrl.prec = 0 ∧
    GetValue freshCtrl = Except.error PyError.typeError :=
  ⟨rfl, rfl, C10_getvalue_none_prec0_raises freshCtrl rfl rfl⟩

end PyepicsWx
